import Mathlib

/-!
Shallow embedding of `src/log.ts` (advanced-frontend-logger).

The source is a single-file TypeScript logging facade: a singleton `Log`
class with a level threshold, metadata enrichment (timestamp, caller info),
a FIFO queue of log entries drained by a deferred `processQueue` loop that
fans each entry out to a list of transports.

Modelling decisions, each traceable to the source:
  * `LogLevel` is the four-element union type; `levelName`/`logLevelsMap`
    embed the `Log.logLevels` rank table.  Because the TS code casts
    `process.env.LOG_LEVEL as LogLevel` without validation, the stored
    `config.logLevel` is a plain `String`, and the rank lookup
    `Log.logLevels[this.config.logLevel]` is partial (`Option Nat`);
    `jsGe` embeds the JavaScript `>=` semantics where a comparison with
    `undefined` is `false`.
  * `jsOrString` embeds `x || 'debug'` (falls back on `undefined` and on
    the empty string, the only falsy strings).
  * A `Transport` is identified by `tid`; its `fails` flag models a
    transport whose `log` operation raises when invoked.  Transport
    invocations are recorded as `Call` values in a trace.
  * `World` carries the per-call host inputs: the two rendered clock
    strings, the result of capturing `new Error().stack` (which may throw
    or be `undefined`), and the two regex matchers of `getCallerInfo`
    (stack-line parsing heuristics are external collaborators; a matcher
    returns the first three capture groups or `none`).
  * The queue/drain machinery (`enqueueLog`, `processQueue`) is embedded
    with explicit state passing over `LogState`; `setTimeout` scheduling
    is modelled by the `pendingDrains` counter, and a scheduled callback
    firing is running `processQueue`.  A transport throw propagates out of
    `forEach` and out of the `while` loop, so `drainQueue` stops at the
    first raising invocation and `processQueue` then leaves
    `isProcessing` at `true` (the `this.isProcessing = false` line is
    skipped by the exception), exactly as in the source.
  * `whileDrain` is a fuel-indexed rendering of the literal `while`
    loop, used to state termination of the drain.
-/

inductive LogLevel where
  | debug
  | info
  | warn
  | error
deriving DecidableEq, Repr

/-- The name each member of the TS union type denotes. -/
def levelName : LogLevel → String
  | .debug => "debug"
  | .info => "info"
  | .warn => "warn"
  | .error => "error"

/-- `Log.logLevels`, read through a string key as the source does with
`this.config.logLevel`; an unrecognized key yields `undefined`. -/
def logLevelsMap : String → Option Nat
  | "debug" => some 0
  | "info" => some 1
  | "warn" => some 2
  | "error" => some 3
  | _ => none

/-- JavaScript `a >= b` on numbers where either side may be `undefined`:
any comparison with `undefined` is `false` (NaN semantics). -/
def jsGe : Option Nat → Option Nat → Bool
  | some a, some b => a ≥ b
  | _, _ => false

/-- JavaScript `v || d` for strings: `undefined` and `""` are the only
falsy strings. -/
def jsOrString (v : Option String) (d : String) : String :=
  match v with
  | none => d
  | some s => if s = "" then d else s

/-- A transport; `tid` is its identity, `fails` models a transport whose
`log` operation raises when invoked. -/
structure Transport where
  tid : Nat
  fails : Bool
deriving DecidableEq, Repr

/-- `LoggerConfig` from the source.  `logLevel` is a `String` because the
source stores the unvalidated cast `process.env.LOG_LEVEL as LogLevel`. -/
structure LoggerConfig where
  logLevel : String
  enableTimestamps : Bool
  enableCallerInfo : Bool
  enableColors : Bool
  transports : List Transport
  humanReadableTimestamp : Bool
deriving Repr

/-- `LogMeta`, parameterized by the type of the extra values. -/
structure LogMeta (α : Type) where
  timestamp : String
  callerInfo : String
  optionalParams : List α
deriving DecidableEq, Repr

/-- A queue entry: `{ level, message, meta }`. -/
structure QueueEntry (α : Type) where
  level : LogLevel
  message : String
  meta : LogMeta α
deriving DecidableEq, Repr

/-- One transport invocation `transport.log(level, message, meta)`,
recorded in the observable trace. -/
structure Call (α : Type) where
  tid : Nat
  level : LogLevel
  message : String
  meta : LogMeta α
deriving DecidableEq, Repr

/-- The default console transport registered by `getInstance` (its
formatting is out of scope; it never raises). -/
def consoleTransport : Transport := { tid := 0, fails := false }

/-- The lazily-initialized configuration built by `getInstance`, from the
external level-name source `process.env.LOG_LEVEL`. -/
def initialConfig (envLogLevel : Option String) : LoggerConfig :=
  { logLevel := jsOrString envLogLevel "debug"
    enableTimestamps := true
    enableCallerInfo := true
    enableColors := true
    transports := [consoleTransport]
    humanReadableTimestamp := true }

/-- `shouldLog`: the production kill-switch is checked first; otherwise the
rank of the call level is compared with the rank looked up under the stored
threshold string (possibly `undefined`). -/
def shouldLog (nodeEnv : Option String) (cfg : LoggerConfig)
    (level : LogLevel) : Bool :=
  if nodeEnv = some "production" then false
  else jsGe (logLevelsMap (levelName level)) (logLevelsMap cfg.logLevel)

/-- Per-call host inputs consumed while building metadata. -/
structure World where
  nowLocale : String
  nowISO : String
  stackAttempt : Except String (Option String)
  regexMatch1 : String → Option (String × String × String)
  regexMatch2 : String → Option (String × String × String)

/-- `getTimestamp`. -/
def getTimestamp (cfg : LoggerConfig) (w : World) : String :=
  if !cfg.enableTimestamps then "timestamp disabled"
  else if cfg.humanReadableTimestamp then w.nowLocale
  else w.nowISO

/-- The `match` chain of `getCallerInfo`: try the first regex, fall back to
the second (`||` on match results). -/
def matchCaller (w : World) (line : String) :
    Option (String × String × String) :=
  (w.regexMatch1 line).orElse (fun _ => w.regexMatch2 line)

/-- `getCallerInfo`: returns the computed string together with the list of
writes made to the standard error channel.  The function always returns
normally: the `try`/`catch` converts a throw during stack capture into a
`console.error` write plus the `"unknown"` result. -/
def getCallerInfo (cfg : LoggerConfig) (w : World) :
    String × List (String × String) :=
  if !cfg.enableCallerInfo then ("caller info disabled", [])
  else
    match w.stackAttempt with
    | .error e => ("unknown", [("Error getting caller info", e)])
    | .ok none => ("unknown", [])
    | .ok (some raw) =>
      let stack := raw.splitOn "\n"
      if stack.length > 3 then
        match matchCaller w (stack.getD 3 "") with
        | some (m1, m2, m3) =>
          (m1.trim ++ " (" ++ m2 ++ ":" ++ m3 ++ ")", [])
        | none => ("unknown", [])
      else ("unknown", [])

/-- The metadata object built at the top of `enqueueLog`. -/
def mkMeta {α : Type} (cfg : LoggerConfig) (w : World)
    (optionalParams : List α) : LogMeta α :=
  { timestamp := getTimestamp cfg w
    callerInfo := (getCallerInfo cfg w).1
    optionalParams := optionalParams }

/-- The mutable state of the singleton `Log` instance.  `pendingDrains`
counts `setTimeout(() => this.processQueue(), 0)` callbacks that are
scheduled but have not fired yet. -/
structure LogState (α : Type) where
  config : LoggerConfig
  logQueue : List (QueueEntry α)
  isProcessing : Bool
  pendingDrains : Nat

/-- `enqueueLog`: builds the meta from the current configuration, pushes
the entry at the back of the queue and schedules a deferred drain.  No
transport is invoked here. -/
def enqueueLog {α : Type} (s : LogState α) (w : World) (level : LogLevel)
    (message : String) (optionalParams : List α) : LogState α :=
  let meta := mkMeta s.config w optionalParams
  { s with
    logQueue := s.logQueue ++ [{ level := level, message := message, meta := meta }]
    pendingDrains := s.pendingDrains + 1 }

/-- `transport.log(level, message, meta)` as a trace event. -/
def mkCall {α : Type} (t : Transport) (e : QueueEntry α) : Call α :=
  { tid := t.tid, level := e.level, message := e.message, meta := e.meta }

/-- `this.config.transports.forEach((transport) => transport.log(...))`:
each transport is invoked in registration order; a raising transport's
invocation still occurs, then the exception aborts the remaining
iterations.  Returns the invocations made and whether a throw escaped. -/
def dispatchEntry {α : Type} (e : QueueEntry α) :
    List Transport → List (Call α) × Bool
  | [] => ([], false)
  | t :: rest =>
    if t.fails then ([mkCall t e], true)
    else
      let r := dispatchEntry e rest
      (mkCall t e :: r.1, r.2)

/-- The `while (this.logQueue.length)` loop: shift the oldest entry, fan it
out, repeat until empty; an escaping transport throw ends the loop with the
rest of the queue untouched.  Returns (trace, remaining queue, raised?). -/
def drainQueue {α : Type} (ts : List Transport) :
    List (QueueEntry α) → List (Call α) × List (QueueEntry α) × Bool
  | [] => ([], [], false)
  | e :: rest =>
    let d := dispatchEntry e ts
    if d.2 then (d.1, rest, true)
    else
      let r := drainQueue ts rest
      (d.1 ++ r.1, r.2.1, r.2.2)

/-- `processQueue`: the re-entrancy guard returns at once while a drain is
in progress; otherwise the flag is set, the queue is drained, and the flag
is reset only if the loop exits normally — an escaping transport throw
skips the `this.isProcessing = false` line. -/
def processQueue {α : Type} (s : LogState α) : LogState α × List (Call α) :=
  if s.isProcessing then (s, [])
  else
    let r := drainQueue s.config.transports s.logQueue
    if r.2.2 then
      ({ s with logQueue := r.2.1, isProcessing := true }, r.1)
    else
      ({ s with logQueue := [], isProcessing := false }, r.1)

/-- Fuel-indexed rendering of the literal `while` loop of `processQueue`,
used to state its termination: `none` means the fuel ran out with the loop
still running. -/
def whileDrain {α : Type} (ts : List Transport) :
    Nat → List (QueueEntry α) → Option (List (Call α) × List (QueueEntry α) × Bool)
  | _, [] => some ([], [], false)
  | 0, _ :: _ => none
  | fuel + 1, e :: rest =>
    let d := dispatchEntry e ts
    if d.2 then some (d.1, rest, true)
    else (whileDrain ts fuel rest).map
      (fun r => (d.1 ++ r.1, r.2.1, r.2.2))

/-- The body shared by the four public logging methods
(`debug`/`info`/`warn`/`error`): gate with `shouldLog`, enqueue if
permitted, and return `this` (the facade reference `self`).  The middle
component is the list of transport invocations performed synchronously
inside the call — none, since `enqueueLog` only pushes and schedules. -/
def logCall {α : Type} (self : Nat) (nodeEnv : Option String)
    (level : LogLevel) (s : LogState α) (w : World) (message : String)
    (ps : List α) : LogState α × List (Call α) × Nat :=
  if shouldLog nodeEnv s.config level then
    (enqueueLog s w level message ps, [], self)
  else (s, [], self)

/-- `Log.debug`. -/
def debugCall {α : Type} (self : Nat) (nodeEnv : Option String)
    (s : LogState α) (w : World) (message : String) (ps : List α) :
    LogState α × List (Call α) × Nat :=
  logCall self nodeEnv .debug s w message ps

/-- `Log.info`. -/
def infoCall {α : Type} (self : Nat) (nodeEnv : Option String)
    (s : LogState α) (w : World) (message : String) (ps : List α) :
    LogState α × List (Call α) × Nat :=
  logCall self nodeEnv .info s w message ps

/-- `Log.warn`. -/
def warnCall {α : Type} (self : Nat) (nodeEnv : Option String)
    (s : LogState α) (w : World) (message : String) (ps : List α) :
    LogState α × List (Call α) × Nat :=
  logCall self nodeEnv .warn s w message ps

/-- `Log.error`. -/
def errorCall {α : Type} (self : Nat) (nodeEnv : Option String)
    (s : LogState α) (w : World) (message : String) (ps : List α) :
    LogState α × List (Call α) × Nat :=
  logCall self nodeEnv .error s w message ps

/-- A partial configuration, the argument of `configure`. -/
structure PartialConfig where
  logLevel : Option String := none
  enableTimestamps : Option Bool := none
  enableCallerInfo : Option Bool := none
  enableColors : Option Bool := none
  transports : Option (List Transport) := none
  humanReadableTimestamp : Option Bool := none

/-- `configure`: `this.config = { ...this.config, ...options }` — a present
field of the partial overrides, an omitted field is kept. -/
def mergeConfig (c : LoggerConfig) (p : PartialConfig) : LoggerConfig :=
  { logLevel := p.logLevel.getD c.logLevel
    enableTimestamps := p.enableTimestamps.getD c.enableTimestamps
    enableCallerInfo := p.enableCallerInfo.getD c.enableCallerInfo
    enableColors := p.enableColors.getD c.enableColors
    transports := p.transports.getD c.transports
    humanReadableTimestamp :=
      p.humanReadableTimestamp.getD c.humanReadableTimestamp }

/-- `configure` on the logger state: only the configuration changes. -/
def configureCall {α : Type} (s : LogState α) (p : PartialConfig) :
    LogState α :=
  { s with config := mergeConfig s.config p }

/-- `addTransport`: `this.config.transports.push(transport)`. -/
def addTransportCall {α : Type} (s : LogState α) (t : Transport) :
    LogState α :=
  { s with config :=
      { s.config with transports := s.config.transports ++ [t] } }

/-- The numeric rank of a genuine `LogLevel` (the total restriction of
`Log.logLevels` to the four union members). -/
def levelRank : LogLevel → Nat
  | .debug => 0
  | .info => 1
  | .warn => 2
  | .error => 3

/-- The queue entry built by `enqueueLog` for a given configuration, world
and arguments (identical to the record pushed by the source). -/
def mkEntry {α : Type} (cfg : LoggerConfig) (w : World) (level : LogLevel)
    (message : String) (ps : List α) : QueueEntry α :=
  { level := level, message := message, meta := mkMeta cfg w ps }

/-- The fan-out of one entry: one invocation per registered transport, in
registration order. -/
def fanout {α : Type} (ts : List Transport) (e : QueueEntry α) :
    List (Call α) :=
  ts.map (fun t => mkCall t e)

/-- The fan-out of a whole queue, front entry first. -/
def fanoutAll {α : Type} (ts : List Transport) :
    List (QueueEntry α) → List (Call α)
  | [] => []
  | e :: rest => fanout ts e ++ fanoutAll ts rest

/-- One request against a public logging method: which method, the host
inputs at that moment, the message, and the extra values. -/
structure LogReq (α : Type) where
  level : LogLevel
  w : World
  message : String
  ps : List α

/-- Performing a sequence of public log calls synchronously, in order
(one synchronous turn; no scheduled drain fires in between). -/
def applyLogs {α : Type} (self : Nat) (nodeEnv : Option String)
    (s : LogState α) : List (LogReq α) → LogState α
  | [] => s
  | r :: rs =>
    applyLogs self nodeEnv (logCall self nodeEnv r.level s r.w r.message r.ps).1 rs

/-- The entries that survive the filtering stage of a request sequence,
in request order, as `enqueueLog` builds them under configuration `cfg`. -/
def enqueuedOf {α : Type} (nodeEnv : Option String) (cfg : LoggerConfig) :
    List (LogReq α) → List (QueueEntry α)
  | [] => []
  | r :: rs =>
    if shouldLog nodeEnv cfg r.level then
      mkEntry cfg r.w r.level r.message r.ps :: enqueuedOf nodeEnv cfg rs
    else enqueuedOf nodeEnv cfg rs

/-! Concrete fixtures used by witnesses and counterexamples. -/

/-- A world with no inspectable stack and matchers that never match. -/
def plainWorld : World :=
  { nowLocale := "3/15/2024, 2:30:45 PM"
    nowISO := "2024-03-15T14:30:45.123Z"
    stackAttempt := .ok none
    regexMatch1 := fun _ => none
    regexMatch2 := fun _ => none }

/-- A world whose stack capture throws. -/
def throwingWorld : World :=
  { plainWorld with stackAttempt := .error "stack capture failed" }

/-- Two distinct well-behaved transports. -/
def twoTransports : List Transport :=
  [{ tid := 0, fails := false }, { tid := 1, fails := false }]

/-- A configuration with threshold name `"warn"` and two transports. -/
def warnConfig : LoggerConfig :=
  { logLevel := "warn"
    enableTimestamps := true
    enableCallerInfo := true
    enableColors := true
    transports := twoTransports
    humanReadableTimestamp := true }

/-- An idle logger state with an empty queue under `warnConfig`. -/
def idleState : LogState Nat :=
  { config := warnConfig, logQueue := [], isProcessing := false
    pendingDrains := 0 }

/-- A transport whose `log` operation raises. -/
def failingTransport : Transport := { tid := 7, fails := true }

/-- Two concrete already-enqueued entries. -/
def entryOne : QueueEntry Nat :=
  { level := .info, message := "one"
    meta := { timestamp := "t1", callerInfo := "c1", optionalParams := [] } }

/-- See `entryOne`. -/
def entryTwo : QueueEntry Nat :=
  { level := .warn, message := "two"
    meta := { timestamp := "t2", callerInfo := "c2", optionalParams := [] } }

/-- An idle state holding two queued entries whose only transport raises:
the state right before a scheduled drain fires. -/
def stuckState : LogState Nat :=
  { config := { warnConfig with
                logLevel := "debug", transports := [failingTransport] }
    logQueue := [entryOne, entryTwo]
    isProcessing := false
    pendingDrains := 1 }

/-! Supporting lemmas (shared across the claim theorems). -/

theorem logLevelsMap_levelName (l : LogLevel) :
    logLevelsMap (levelName l) = some (levelRank l) := by
  cases l <;> rfl

theorem dispatchEntry_noFail {α : Type} (e : QueueEntry α) :
    ∀ ts : List Transport, (∀ t ∈ ts, t.fails = false) →
      dispatchEntry e ts = (fanout ts e, false)
  | [], _ => rfl
  | t :: rest, h => by
    have ht : t.fails = false := h t (List.mem_cons_self t rest)
    have hr := dispatchEntry_noFail e rest
      (fun x hx => h x (List.mem_cons_of_mem t hx))
    simp [dispatchEntry, ht, hr, fanout]

theorem drainQueue_noFail {α : Type} (ts : List Transport)
    (h : ∀ t ∈ ts, t.fails = false) :
    ∀ q : List (QueueEntry α), drainQueue ts q = (fanoutAll ts q, [], false)
  | [] => rfl
  | e :: rest => by
    have hd := dispatchEntry_noFail e ts h
    have hr := drainQueue_noFail ts h rest
    simp [drainQueue, hd, hr, fanoutAll]

theorem processQueue_noFail {α : Type} (s : LogState α)
    (hidle : s.isProcessing = false)
    (h : ∀ t ∈ s.config.transports, t.fails = false) :
    processQueue s =
      ({ s with logQueue := [], isProcessing := false },
        fanoutAll s.config.transports s.logQueue) := by
  simp [processQueue, hidle, drainQueue_noFail s.config.transports h s.logQueue]

theorem logCall_ret {α : Type} (self : Nat) (nodeEnv : Option String)
    (level : LogLevel) (s : LogState α) (w : World) (m : String)
    (ps : List α) : (logCall self nodeEnv level s w m ps).2.2 = self := by
  unfold logCall
  split <;> rfl

theorem logCall_syncCalls {α : Type} (self : Nat) (nodeEnv : Option String)
    (level : LogLevel) (s : LogState α) (w : World) (m : String)
    (ps : List α) : (logCall self nodeEnv level s w m ps).2.1 = [] := by
  unfold logCall
  split <;> rfl

theorem logCall_state_permitted {α : Type} (self : Nat)
    (nodeEnv : Option String) (level : LogLevel) (s : LogState α) (w : World)
    (m : String) (ps : List α) (hp : shouldLog nodeEnv s.config level = true) :
    (logCall self nodeEnv level s w m ps).1 = enqueueLog s w level m ps := by
  simp [logCall, hp]

theorem logCall_state_denied {α : Type} (self : Nat)
    (nodeEnv : Option String) (level : LogLevel) (s : LogState α) (w : World)
    (m : String) (ps : List α)
    (hp : shouldLog nodeEnv s.config level = false) :
    (logCall self nodeEnv level s w m ps).1 = s := by
  simp [logCall, hp]

theorem enqueueLog_queue {α : Type} (s : LogState α) (w : World)
    (level : LogLevel) (m : String) (ps : List α) :
    (enqueueLog s w level m ps).logQueue
      = s.logQueue ++ [mkEntry s.config w level m ps] := rfl

theorem enqueueLog_config {α : Type} (s : LogState α) (w : World)
    (level : LogLevel) (m : String) (ps : List α) :
    (enqueueLog s w level m ps).config = s.config := rfl

theorem enqueueLog_isProcessing {α : Type} (s : LogState α) (w : World)
    (level : LogLevel) (m : String) (ps : List α) :
    (enqueueLog s w level m ps).isProcessing = s.isProcessing := rfl

theorem enqueueLog_pendingDrains {α : Type} (s : LogState α) (w : World)
    (level : LogLevel) (m : String) (ps : List α) :
    (enqueueLog s w level m ps).pendingDrains = s.pendingDrains + 1 := rfl

theorem logCall_config {α : Type} (self : Nat) (nodeEnv : Option String)
    (level : LogLevel) (s : LogState α) (w : World) (m : String)
    (ps : List α) : (logCall self nodeEnv level s w m ps).1.config = s.config := by
  unfold logCall
  split <;> rfl

theorem logCall_isProcessing {α : Type} (self : Nat) (nodeEnv : Option String)
    (level : LogLevel) (s : LogState α) (w : World) (m : String)
    (ps : List α) :
    (logCall self nodeEnv level s w m ps).1.isProcessing = s.isProcessing := by
  unfold logCall
  split <;> rfl

theorem logCall_queue {α : Type} (self : Nat) (nodeEnv : Option String)
    (level : LogLevel) (s : LogState α) (w : World) (m : String)
    (ps : List α) :
    (logCall self nodeEnv level s w m ps).1.logQueue
      = s.logQueue ++
          (if shouldLog nodeEnv s.config level then
            [mkEntry s.config w level m ps]
          else []) := by
  by_cases hp : shouldLog nodeEnv s.config level
  · rw [logCall_state_permitted self nodeEnv level s w m ps hp,
      enqueueLog_queue, if_pos hp]
  · rw [logCall_state_denied self nodeEnv level s w m ps (by simpa using hp),
      if_neg hp, List.append_nil]

theorem applyLogs_spec {α : Type} (self : Nat) (nodeEnv : Option String) :
    ∀ (reqs : List (LogReq α)) (s : LogState α),
      (applyLogs self nodeEnv s reqs).config = s.config
      ∧ (applyLogs self nodeEnv s reqs).isProcessing = s.isProcessing
      ∧ (applyLogs self nodeEnv s reqs).logQueue
          = s.logQueue ++ enqueuedOf nodeEnv s.config reqs
  | [], s => by simp [applyLogs, enqueuedOf]
  | r :: rs, s => by
    have ih := applyLogs_spec self nodeEnv rs
      (logCall self nodeEnv r.level s r.w r.message r.ps).1
    obtain ⟨ihc, ihp, ihq⟩ := ih
    refine ⟨?_, ?_, ?_⟩
    · rw [applyLogs, ihc, logCall_config]
    · rw [applyLogs, ihp, logCall_isProcessing]
    · rw [applyLogs, ihq, logCall_config, logCall_queue, enqueuedOf]
      by_cases hp : shouldLog nodeEnv s.config r.level
      · simp [hp]
      · simp [hp]

theorem jsGe_some_iff (a : Nat) (b : Option Nat) :
    jsGe (some a) b = true ↔ ∃ r, b = some r ∧ a ≥ r := by
  cases b with
  | none => simp [jsGe]
  | some v => simp [jsGe]

/-- C2: gating is evaluated production-check first — under the
production indicator `shouldLog` is `false` for every configuration and
level; otherwise a call is permitted exactly when its level's rank is at
least the rank found under the configured threshold.  Consequently, on an
idle empty-queue state whose threshold is `"warn"`, debug and info calls
leave the state unchanged and produce an empty dispatch trace even after
the drain fires, while warn and error calls each produce exactly one
invocation per registered transport. -/
theorem c2_gating_order {α : Type} (self : Nat) (nodeEnv : Option String)
    (s : LogState α) (w : World) (m : String) (ps : List α)
    (hprod : nodeEnv ≠ some "production")
    (hwarn : s.config.logLevel = "warn")
    (hidle : s.isProcessing = false) (hq : s.logQueue = [])
    (hok : ∀ t ∈ s.config.transports, t.fails = false) :
    (∀ (cfg : LoggerConfig) (level : LogLevel),
        shouldLog (some "production") cfg level = false)
    ∧ (∀ (env : Option String) (cfg : LoggerConfig) (level : LogLevel),
        env ≠ some "production" →
        (shouldLog env cfg level = true ↔
          ∃ r, logLevelsMap cfg.logLevel = some r ∧ levelRank level ≥ r))
    ∧ (debugCall self nodeEnv s w m ps).1 = s
    ∧ (infoCall self nodeEnv s w m ps).1 = s
    ∧ (processQueue (debugCall self nodeEnv s w m ps).1).2 = []
    ∧ (processQueue (infoCall self nodeEnv s w m ps).1).2 = []
    ∧ (processQueue (warnCall self nodeEnv s w m ps).1).2
        = s.config.transports.map
            (fun t => mkCall t (mkEntry s.config w .warn m ps))
    ∧ (processQueue (errorCall self nodeEnv s w m ps).1).2
        = s.config.transports.map
            (fun t => mkCall t (mkEntry s.config w .error m ps)) := by
  have hprodAll : ∀ (cfg : LoggerConfig) (level : LogLevel),
      shouldLog (some "production") cfg level = false := by
    intro cfg level
    simp [shouldLog]
  have hrank : ∀ (env : Option String) (cfg : LoggerConfig) (level : LogLevel),
      env ≠ some "production" →
      (shouldLog env cfg level = true ↔
        ∃ r, logLevelsMap cfg.logLevel = some r ∧ levelRank level ≥ r) := by
    intro env cfg level henv
    unfold shouldLog
    rw [if_neg henv, logLevelsMap_levelName]
    exact jsGe_some_iff (levelRank level) (logLevelsMap cfg.logLevel)
  have hdeb : shouldLog nodeEnv s.config .debug = false := by
    unfold shouldLog
    rw [if_neg hprod, hwarn]
    rfl
  have hinf : shouldLog nodeEnv s.config .info = false := by
    unfold shouldLog
    rw [if_neg hprod, hwarn]
    rfl
  have hwa : shouldLog nodeEnv s.config .warn = true := by
    unfold shouldLog
    rw [if_neg hprod, hwarn]
    rfl
  have herr : shouldLog nodeEnv s.config .error = true := by
    unfold shouldLog
    rw [if_neg hprod, hwarn]
    rfl
  have hidle2 : ∀ (level : LogLevel),
      (enqueueLog s w level m ps).isProcessing = false := by
    intro level
    rw [enqueueLog_isProcessing]
    exact hidle
  have hok2 : ∀ (level : LogLevel),
      ∀ t ∈ (enqueueLog s w level m ps).config.transports, t.fails = false := by
    intro level
    rw [enqueueLog_config]
    exact hok
  refine ⟨hprodAll, hrank, ?_, ?_, ?_, ?_, ?_, ?_⟩
  · simp only [debugCall]
    exact logCall_state_denied self nodeEnv .debug s w m ps hdeb
  · simp only [infoCall]
    exact logCall_state_denied self nodeEnv .info s w m ps hinf
  · simp only [debugCall]
    rw [logCall_state_denied self nodeEnv .debug s w m ps hdeb,
      processQueue_noFail s hidle hok]
    simp [hq, fanoutAll]
  · simp only [infoCall]
    rw [logCall_state_denied self nodeEnv .info s w m ps hinf,
      processQueue_noFail s hidle hok]
    simp [hq, fanoutAll]
  · simp only [warnCall]
    rw [logCall_state_permitted self nodeEnv .warn s w m ps hwa,
      processQueue_noFail _ (hidle2 .warn) (hok2 .warn)]
    simp [enqueueLog_queue, enqueueLog_config, hq, fanoutAll, fanout]
  · simp only [errorCall]
    rw [logCall_state_permitted self nodeEnv .error s w m ps herr,
      processQueue_noFail _ (hidle2 .error) (hok2 .error)]
    simp [enqueueLog_queue, enqueueLog_config, hq, fanoutAll, fanout]

/-- Witness for C2: on the concrete idle state with threshold `"warn"` and
two transports, a warn call followed by the drain yields exactly one
invocation per transport, and a debug call yields none. -/
theorem c2_gating_order_witness :
    (processQueue (warnCall 0 none idleState plainWorld "m" [1, 2]).1).2
      = idleState.config.transports.map
          (fun t => mkCall t (mkEntry idleState.config plainWorld .warn "m" [1, 2]))
    ∧ (processQueue (debugCall 0 none idleState plainWorld "m" [1, 2]).1).2 = [] := by
  have h := c2_gating_order 0 none idleState plainWorld "m" [1, 2]
    (by decide) rfl rfl rfl (by decide)
  exact ⟨h.2.2.2.2.2.2.1, h.2.2.2.2.1⟩

/-- C3 counterexample: at the concrete unrecognized level-name input
`"verbose"`, the logger does not fall back to the default threshold — the
string is kept as the threshold (`x || 'debug'` only replaces absent or
empty input) — and it does not subsequently filter as if the threshold
were `"debug"`: even an error call is denied (the rank lookup under
`"verbose"` is `undefined` and the JavaScript `>=` is then false), whereas
under threshold `"debug"` the same call is permitted. -/
theorem c3_counterexample :
    ¬ (initialConfig (some "verbose")).logLevel = "debug"
    ∧ shouldLog none (initialConfig (some "verbose")) .error = false
    ∧ shouldLog none
        { initialConfig (some "verbose") with logLevel := "debug" }
        .error = true := by
  refine ⟨?_, ?_, ?_⟩ <;> decide

/-- C3 (amended): the threshold falls back to `"debug"` only when the
external level-name input is absent or empty.  A non-empty unrecognized
name is stored verbatim as the threshold, and the logger then filters
nothing through: outside production mode, every call of every level is
denied, because the rank lookup under the unrecognized name is undefined
and the comparison with an undefined rank is false. -/
theorem c3_level_fallback (envLogLevel : Option String) :
    ((envLogLevel = none ∨ envLogLevel = some "") →
      (initialConfig envLogLevel).logLevel = "debug")
    ∧ (∀ name, envLogLevel = some name → name ≠ "" →
        logLevelsMap name = none →
        (initialConfig envLogLevel).logLevel = name
        ∧ ∀ (nodeEnv : Option String) (level : LogLevel),
            shouldLog nodeEnv (initialConfig envLogLevel) level = false) := by
  constructor
  · intro h
    rcases h with h | h <;> simp [h, initialConfig, jsOrString]
  · intro name he hne hmap
    have hlv : (initialConfig envLogLevel).logLevel = name := by
      simp [he, initialConfig, jsOrString, hne]
    refine ⟨hlv, ?_⟩
    intro nodeEnv level
    unfold shouldLog
    rw [hlv, hmap, logLevelsMap_levelName]
    by_cases hp : nodeEnv = some "production"
    · rw [if_pos hp]
    · rw [if_neg hp]
      rfl

/-- Witness for C3 (amended): absent input yields threshold `"debug"`;
the unrecognized input `"verbose"` is stored verbatim and then even a
debug-threshold-permitted error call is denied. -/
theorem c3_level_fallback_witness :
    (initialConfig none).logLevel = "debug"
    ∧ (initialConfig (some "verbose")).logLevel = "verbose"
    ∧ shouldLog none (initialConfig (some "verbose")) .debug = false :=
  ⟨(c3_level_fallback none).1 (Or.inl rfl),
   ((c3_level_fallback (some "verbose")).2 "verbose" rfl (by decide) rfl).1,
   ((c3_level_fallback (some "verbose")).2 "verbose" rfl (by decide) rfl).2
     none .debug⟩

/-- C5: `configure` merges — every field present in the partial replaces
the current value (in particular a present `transports` field fully
replaces the list), and every omitted field is left unchanged; the queue
and processing flag are untouched.  `addTransport t` appends `t` at the
end of the current transport list and changes no other configuration
field, nor the queue or processing flag. -/
theorem c5_configure_addTransport {α : Type} (s : LogState α)
    (p : PartialConfig) (t : Transport) :
    ((p.logLevel = none →
        (configureCall s p).config.logLevel = s.config.logLevel)
      ∧ (∀ v, p.logLevel = some v → (configureCall s p).config.logLevel = v)
      ∧ (p.enableTimestamps = none →
          (configureCall s p).config.enableTimestamps
            = s.config.enableTimestamps)
      ∧ (∀ v, p.enableTimestamps = some v →
          (configureCall s p).config.enableTimestamps = v)
      ∧ (p.enableCallerInfo = none →
          (configureCall s p).config.enableCallerInfo
            = s.config.enableCallerInfo)
      ∧ (∀ v, p.enableCallerInfo = some v →
          (configureCall s p).config.enableCallerInfo = v)
      ∧ (p.enableColors = none →
          (configureCall s p).config.enableColors = s.config.enableColors)
      ∧ (∀ v, p.enableColors = some v →
          (configureCall s p).config.enableColors = v)
      ∧ (p.humanReadableTimestamp = none →
          (configureCall s p).config.humanReadableTimestamp
            = s.config.humanReadableTimestamp)
      ∧ (∀ v, p.humanReadableTimestamp = some v →
          (configureCall s p).config.humanReadableTimestamp = v)
      ∧ (p.transports = none →
          (configureCall s p).config.transports = s.config.transports)
      ∧ (∀ l, p.transports = some l →
          (configureCall s p).config.transports = l)
      ∧ (configureCall s p).logQueue = s.logQueue
      ∧ (configureCall s p).isProcessing = s.isProcessing)
    ∧ ((addTransportCall s t).config.transports = s.config.transports ++ [t]
      ∧ (addTransportCall s t).config.logLevel = s.config.logLevel
      ∧ (addTransportCall s t).config.enableTimestamps
          = s.config.enableTimestamps
      ∧ (addTransportCall s t).config.enableCallerInfo
          = s.config.enableCallerInfo
      ∧ (addTransportCall s t).config.enableColors = s.config.enableColors
      ∧ (addTransportCall s t).config.humanReadableTimestamp
          = s.config.humanReadableTimestamp
      ∧ (addTransportCall s t).logQueue = s.logQueue
      ∧ (addTransportCall s t).isProcessing = s.isProcessing) := by
  constructor
  · refine ⟨?_, ?_, ?_, ?_, ?_, ?_, ?_, ?_, ?_, ?_, ?_, ?_, rfl, rfl⟩ <;>
      first
        | (intro h; simp [configureCall, mergeConfig, h])
        | (intro v h; simp [configureCall, mergeConfig, h])
  · exact ⟨rfl, rfl, rfl, rfl, rfl, rfl, rfl, rfl⟩

/-- Witness for C5: a concrete partial that sets only the level name
leaves every other field of the concrete state unchanged, and appending a
concrete transport extends the list at its end. -/
theorem c5_configure_addTransport_witness :
    (configureCall idleState { logLevel := some "error" }).config.logLevel
      = "error"
    ∧ (configureCall idleState
        { logLevel := some "error" }).config.transports
      = idleState.config.transports
    ∧ (addTransportCall idleState
        { tid := 9, fails := false }).config.transports
      = idleState.config.transports ++ [{ tid := 9, fails := false }] := by
  have h := c5_configure_addTransport idleState
    { logLevel := some "error" } { tid := 9, fails := false }
  exact ⟨h.1.2.1 "error" rfl, h.1.2.2.2.2.2.2.2.2.2.2.1 rfl, h.2.1⟩

/-- C6: with caller info enabled, the value is extracted from the stack
line at index 3 of the split stack (the frame three levels up from the
capture point) when the stack has more than three lines and one of the two
patterns matches; a missing stack, a stack of at most three lines, or a
pattern mismatch yields the literal `"unknown"` with nothing written to
standard error; a throw during stack capture is caught, written to the
standard error channel, and also yields `"unknown"`.  The extraction never
propagates a failure: `enqueueLog` always proceeds and stores the computed
string (possibly `"unknown"`) in the entry's metadata. -/
theorem c6_caller_info {α : Type} (cfg : LoggerConfig) (w : World)
    (hen : cfg.enableCallerInfo = true) :
    (∀ raw m1 m2 m3, w.stackAttempt = .ok (some raw) →
      (raw.splitOn "\n").length > 3 →
      matchCaller w ((raw.splitOn "\n").getD 3 "") = some (m1, m2, m3) →
      getCallerInfo cfg w = (m1.trim ++ " (" ++ m2 ++ ":" ++ m3 ++ ")", []))
    ∧ (∀ raw, w.stackAttempt = .ok (some raw) →
        ¬(raw.splitOn "\n").length > 3 →
        getCallerInfo cfg w = ("unknown", []))
    ∧ (w.stackAttempt = .ok none → getCallerInfo cfg w = ("unknown", []))
    ∧ (∀ raw, w.stackAttempt = .ok (some raw) →
        (raw.splitOn "\n").length > 3 →
        matchCaller w ((raw.splitOn "\n").getD 3 "") = none →
        getCallerInfo cfg w = ("unknown", []))
    ∧ (∀ e, w.stackAttempt = .error e →
        getCallerInfo cfg w = ("unknown", [("Error getting caller info", e)]))
    ∧ (∀ (s : LogState α) (level : LogLevel) (m : String) (ps : List α),
        s.config = cfg →
        (enqueueLog s w level m ps).logQueue
          = s.logQueue ++
              [{ level := level, message := m,
                 meta := { timestamp := getTimestamp cfg w,
                           callerInfo := (getCallerInfo cfg w).1,
                           optionalParams := ps } }]) := by
  refine ⟨?_, ?_, ?_, ?_, ?_, ?_⟩
  · intro raw m1 m2 m3 hst hlen hmatch
    rw [List.getD_eq_getElem _ _ hlen] at hmatch
    simp [getCallerInfo, hen, hst, hlen, hmatch]
  · intro raw hst hlen
    simp [getCallerInfo, hen, hst, hlen]
  · intro hst
    simp [getCallerInfo, hen, hst]
  · intro raw hst hlen hmatch
    rw [List.getD_eq_getElem _ _ hlen] at hmatch
    simp [getCallerInfo, hen, hst, hlen, hmatch]
  · intro e hst
    simp [getCallerInfo, hen, hst]
  · intro s level m ps hs
    rw [enqueueLog_queue, hs]
    rfl

/-- Witness for C6: with the concrete configuration and a world whose
stack capture throws, the result is `"unknown"` together with one write to
the standard error channel. -/
theorem c6_caller_info_witness :
    getCallerInfo warnConfig throwingWorld
      = ("unknown", [("Error getting caller info", "stack capture failed")]) :=
  (c6_caller_info (α := Nat) warnConfig throwingWorld rfl).2.2.2.2.1
    "stack capture failed" rfl

/-- C7: every one of the four public logging methods returns the facade
reference `self` itself and performs zero transport invocations
synchronously within the call (the synchronous trace component is empty);
a permitted call only appends the entry at the back of the queue and
schedules one more deferred drain, and a denied call leaves the state
untouched. -/
theorem c7_chainable_enqueue {α : Type} (self : Nat) (nodeEnv : Option String)
    (s : LogState α) (w : World) (m : String) (ps : List α) :
    ((debugCall self nodeEnv s w m ps).2.2 = self
      ∧ (infoCall self nodeEnv s w m ps).2.2 = self
      ∧ (warnCall self nodeEnv s w m ps).2.2 = self
      ∧ (errorCall self nodeEnv s w m ps).2.2 = self)
    ∧ ((debugCall self nodeEnv s w m ps).2.1 = []
      ∧ (infoCall self nodeEnv s w m ps).2.1 = []
      ∧ (warnCall self nodeEnv s w m ps).2.1 = []
      ∧ (errorCall self nodeEnv s w m ps).2.1 = [])
    ∧ (∀ level, shouldLog nodeEnv s.config level = true →
        (logCall self nodeEnv level s w m ps).1.logQueue
          = s.logQueue ++ [mkEntry s.config w level m ps]
        ∧ (logCall self nodeEnv level s w m ps).1.pendingDrains
            = s.pendingDrains + 1)
    ∧ (∀ level, shouldLog nodeEnv s.config level = false →
        (logCall self nodeEnv level s w m ps).1 = s) := by
  refine ⟨⟨?_, ?_, ?_, ?_⟩, ⟨?_, ?_, ?_, ?_⟩, ?_, ?_⟩
  · exact logCall_ret self nodeEnv .debug s w m ps
  · exact logCall_ret self nodeEnv .info s w m ps
  · exact logCall_ret self nodeEnv .warn s w m ps
  · exact logCall_ret self nodeEnv .error s w m ps
  · exact logCall_syncCalls self nodeEnv .debug s w m ps
  · exact logCall_syncCalls self nodeEnv .info s w m ps
  · exact logCall_syncCalls self nodeEnv .warn s w m ps
  · exact logCall_syncCalls self nodeEnv .error s w m ps
  · intro level hp
    rw [logCall_state_permitted self nodeEnv level s w m ps hp]
    exact ⟨enqueueLog_queue s w level m ps,
      enqueueLog_pendingDrains s w level m ps⟩
  · intro level hp
    exact logCall_state_denied self nodeEnv level s w m ps hp

/-- Witness for C7: on the concrete idle state, an error call returns the
facade reference, makes no synchronous transport invocation, and enqueues
one entry while scheduling a drain. -/
theorem c7_chainable_enqueue_witness :
    (errorCall 4 none idleState plainWorld "boom" [1]).2.2 = 4
    ∧ (errorCall 4 none idleState plainWorld "boom" [1]).2.1 = []
    ∧ (logCall 4 none .error idleState plainWorld "boom" [1]).1.logQueue
        = idleState.logQueue
            ++ [mkEntry idleState.config plainWorld .error "boom" [1]]
    ∧ (logCall 4 none .error idleState plainWorld "boom" [1]).1.pendingDrains
        = idleState.pendingDrains + 1 := by
  have h := c7_chainable_enqueue 4 none idleState plainWorld "boom" [1]
  exact ⟨h.1.2.2.2, h.2.1.2.2.2, (h.2.2.1 .error (by decide)).1,
    (h.2.2.1 .error (by decide)).2⟩

/-- C8: round-trip of the optional parameters — for a permitted call with
message `m` and extra values `vs` on an idle empty-queue state, the drain
delivers to every registered transport, in registration order, exactly one
invocation carrying the unchanged message `m` and a metadata record whose
`optionalParams` is exactly `vs`, intact and in order. -/
theorem c8_roundtrip {α : Type} (self : Nat) (nodeEnv : Option String)
    (level : LogLevel) (s : LogState α) (w : World) (m : String)
    (vs : List α)
    (hperm : shouldLog nodeEnv s.config level = true)
    (hidle : s.isProcessing = false) (hq : s.logQueue = [])
    (hok : ∀ t ∈ s.config.transports, t.fails = false) :
    (processQueue (logCall self nodeEnv level s w m vs).1).2
      = s.config.transports.map (fun t =>
          { tid := t.tid, level := level, message := m,
            meta := { timestamp := getTimestamp s.config w,
                      callerInfo := (getCallerInfo s.config w).1,
                      optionalParams := vs } }) := by
  rw [logCall_state_permitted self nodeEnv level s w m vs hperm]
  have hidle2 : (enqueueLog s w level m vs).isProcessing = false := by
    rw [enqueueLog_isProcessing]
    exact hidle
  have hok2 : ∀ t ∈ (enqueueLog s w level m vs).config.transports,
      t.fails = false := by
    rw [enqueueLog_config]
    exact hok
  rw [processQueue_noFail _ hidle2 hok2]
  simp [enqueueLog_queue, enqueueLog_config, hq, fanoutAll, fanout, mkCall,
    mkEntry, mkMeta]

/-- Witness for C8: the concrete values round-trip through enqueue and
drain to both registered transports. -/
theorem c8_roundtrip_witness :
    (processQueue (logCall 0 none .error idleState plainWorld "msg"
        [10, 20, 30]).1).2
      = idleState.config.transports.map (fun t =>
          { tid := t.tid, level := .error, message := "msg",
            meta := { timestamp := getTimestamp idleState.config plainWorld,
                      callerInfo :=
                        (getCallerInfo idleState.config plainWorld).1,
                      optionalParams := [10, 20, 30] } }) :=
  c8_roundtrip 0 none .error idleState plainWorld "msg" [10, 20, 30]
    (by decide) rfl rfl (by decide)

/-- C9: an entry's metadata is fixed at enqueue time from the
configuration current at that moment — a `configure` performed after the
enqueue and before the drain does not touch the queued entry, and the
drain delivers it with the originally computed metadata (while the fan-out
uses the live, post-`configure` transport list). -/
theorem c9_meta_at_enqueue {α : Type} (self : Nat) (nodeEnv : Option String)
    (level : LogLevel) (s : LogState α) (w : World) (m : String)
    (vs : List α) (p : PartialConfig)
    (hperm : shouldLog nodeEnv s.config level = true)
    (hidle : s.isProcessing = false) (hq : s.logQueue = [])
    (hok : ∀ t ∈ (mergeConfig s.config p).transports, t.fails = false) :
    (configureCall (logCall self nodeEnv level s w m vs).1 p).logQueue
      = (logCall self nodeEnv level s w m vs).1.logQueue
    ∧ (processQueue (configureCall (logCall self nodeEnv level s w m vs).1 p)).2
        = (mergeConfig s.config p).transports.map
            (fun t => mkCall t (mkEntry s.config w level m vs)) := by
  rw [logCall_state_permitted self nodeEnv level s w m vs hperm]
  refine ⟨rfl, ?_⟩
  have hcfg : (configureCall (enqueueLog s w level m vs) p).config
      = mergeConfig s.config p := by
    simp [configureCall, enqueueLog_config]
  have hidle2 : (configureCall (enqueueLog s w level m vs) p).isProcessing
      = false := by
    simp [configureCall, enqueueLog_isProcessing, hidle]
  have hok2 : ∀ t ∈ (configureCall (enqueueLog s w level m vs) p).config.transports,
      t.fails = false := by
    rw [hcfg]
    exact hok
  rw [processQueue_noFail _ hidle2 hok2, hcfg]
  have hq2 : (configureCall (enqueueLog s w level m vs) p).logQueue
      = [mkEntry s.config w level m vs] := by
    simp [configureCall, enqueueLog_queue, hq]
  rw [hq2]
  simp [fanoutAll, fanout]

/-- Witness for C9: a post-enqueue `configure` that disables timestamps
and swaps the transport list does not alter the already-queued entry — the
drained invocation still carries the metadata computed from the original
configuration — while the fan-out goes to the new transport list. -/
theorem c9_meta_at_enqueue_witness :
    (processQueue (configureCall
        (logCall 0 none .warn idleState plainWorld "late" [5]).1
        { enableTimestamps := some false,
          transports := some [{ tid := 9, fails := false }] })).2
      = (mergeConfig idleState.config
          { enableTimestamps := some false,
            transports := some [{ tid := 9, fails := false }] }).transports.map
          (fun t => mkCall t (mkEntry idleState.config plainWorld .warn
            "late" [5])) :=
  (c9_meta_at_enqueue 0 none .warn idleState plainWorld "late" [5]
    { enableTimestamps := some false,
      transports := some [{ tid := 9, fails := false }] }
    (by decide) rfl rfl (by decide)).2

/-- C1: for any sequence of permitted log calls made in one synchronous
turn on an idle logger whose transports do not raise, the entries that
pass the filter are appended to the single shared queue in call order, and
the drain then dispatches exactly those entries — the prior queue content
first, then the new entries — each fanned out to every transport, strictly
in FIFO order across all levels; the queue is left empty and the state
idle, so nothing enqueued is reordered or dropped (filtering happened
before enqueue, inside `enqueuedOf`). -/
theorem c1_fifo_order {α : Type} (self : Nat) (nodeEnv : Option String)
    (s : LogState α) (reqs : List (LogReq α))
    (hidle : s.isProcessing = false)
    (hok : ∀ t ∈ s.config.transports, t.fails = false) :
    (applyLogs self nodeEnv s reqs).logQueue
      = s.logQueue ++ enqueuedOf nodeEnv s.config reqs
    ∧ (processQueue (applyLogs self nodeEnv s reqs)).2
        = fanoutAll s.config.transports
            (s.logQueue ++ enqueuedOf nodeEnv s.config reqs)
    ∧ (processQueue (applyLogs self nodeEnv s reqs)).1.logQueue = []
    ∧ (processQueue (applyLogs self nodeEnv s reqs)).1.isProcessing
        = false := by
  obtain ⟨hc, hp, hqq⟩ := applyLogs_spec self nodeEnv reqs s
  have hidle2 : (applyLogs self nodeEnv s reqs).isProcessing = false := by
    rw [hp]
    exact hidle
  have hok2 : ∀ t ∈ (applyLogs self nodeEnv s reqs).config.transports,
      t.fails = false := by
    rw [hc]
    exact hok
  rw [processQueue_noFail _ hidle2 hok2]
  exact ⟨hqq, by rw [hqq, hc], rfl, rfl⟩

/-- Witness for C1: two concrete calls (a filtered-out debug and a
permitted error) on the concrete idle state; the drain trace is exactly
the FIFO fan-out of what was enqueued and the queue ends empty. -/
theorem c1_fifo_order_witness :
    (processQueue (applyLogs 0 none idleState
        [⟨.debug, plainWorld, "a", [1]⟩, ⟨.error, plainWorld, "b", [2]⟩])).2
      = fanoutAll idleState.config.transports
          (idleState.logQueue ++ enqueuedOf none idleState.config
            [⟨.debug, plainWorld, "a", [1]⟩, ⟨.error, plainWorld, "b", [2]⟩])
    ∧ (processQueue (applyLogs 0 none idleState
        [⟨.debug, plainWorld, "a", [1]⟩,
         ⟨.error, plainWorld, "b", [2]⟩])).1.logQueue = [] := by
  have h := c1_fifo_order 0 none idleState
    [⟨.debug, plainWorld, "a", [1]⟩, ⟨.error, plainWorld, "b", [2]⟩]
    rfl (by decide)
  exact ⟨h.2.1, h.2.2.1⟩

/-- C4 counterexample: on the concrete idle state `stuckState` (two queued
entries, one raising transport) the drain pass is interrupted after the
first entry, as the claim says — but the claim's recovery clause fails:
the processing flag is left `true`, so after a subsequent enqueue the
newly scheduled drain dispatches nothing (`[]`) even though the queue
still holds the remaining old entry and the new one. -/
theorem c4_counterexample :
    (processQueue stuckState).1.isProcessing = true
    ∧ (processQueue stuckState).1.logQueue = [entryTwo]
    ∧ (processQueue (enqueueLog (processQueue stuckState).1 plainWorld
        .error "after" [3])).2 = []
    ∧ (processQueue (enqueueLog (processQueue stuckState).1 plainWorld
        .error "after" [3])).1.logQueue
      = [entryTwo, mkEntry (processQueue stuckState).1.config plainWorld
          .error "after" [3]] := by
  refine ⟨?_, ?_, ?_, ?_⟩ <;> decide

/-- C4 (amended): a transport throw during a drain interrupts the
remaining iterations of that pass (the raising entry was already removed;
the rest of the queue survives), but the failure reaches further than that
pass: the processing flag is never reset, so every subsequently scheduled
drain — including the one scheduled by a subsequent enqueue — returns
immediately and dispatches nothing; the surviving entries are never
delivered. -/
theorem c4_transport_throw {α : Type} (s : LogState α)
    (hidle : s.isProcessing = false)
    (hraise : (drainQueue s.config.transports s.logQueue).2.2 = true) :
    (processQueue s).2 = (drainQueue s.config.transports s.logQueue).1
    ∧ (processQueue s).1.logQueue
        = (drainQueue s.config.transports s.logQueue).2.1
    ∧ (processQueue s).1.isProcessing = true
    ∧ (∀ s2 : LogState α, s2.isProcessing = true → processQueue s2 = (s2, []))
    ∧ (∀ (w : World) (level : LogLevel) (m : String) (ps : List α),
        processQueue (enqueueLog (processQueue s).1 w level m ps)
          = (enqueueLog (processQueue s).1 w level m ps, [])) := by
  have hpq : processQueue s
      = ({ s with
            logQueue := (drainQueue s.config.transports s.logQueue).2.1,
            isProcessing := true },
          (drainQueue s.config.transports s.logQueue).1) := by
    simp [processQueue, hidle, hraise]
  have hguard : ∀ s2 : LogState α, s2.isProcessing = true →
      processQueue s2 = (s2, []) := by
    intro s2 h2
    simp [processQueue, h2]
  refine ⟨by rw [hpq], by rw [hpq], by rw [hpq], hguard, ?_⟩
  intro w level m ps
  apply hguard
  rw [enqueueLog_isProcessing, hpq]

/-- Witness for C4 (amended): applied to the concrete `stuckState`. -/
theorem c4_transport_throw_witness :
    (processQueue stuckState).1.isProcessing = true
    ∧ processQueue (enqueueLog (processQueue stuckState).1 plainWorld
        .warn "later" [4])
      = (enqueueLog (processQueue stuckState).1 plainWorld .warn
          "later" [4], []) :=
  ⟨(c4_transport_throw stuckState rfl (by decide)).2.2.1,
   (c4_transport_throw stuckState rfl (by decide)).2.2.2.2 plainWorld
     .warn "later" [4]⟩

theorem whileDrain_eq {α : Type} (ts : List Transport) :
    ∀ (q : List (QueueEntry α)) (fuel : Nat), q.length ≤ fuel →
      whileDrain ts fuel q = some (drainQueue ts q)
  | [], fuel, _ => by cases fuel <;> rfl
  | e :: rest, 0, h => by simp at h
  | e :: rest, fuel + 1, h => by
    have ih := whileDrain_eq ts rest fuel (by
      simpa using Nat.succ_le_succ_iff.mp (by simpa using h))
    by_cases hd : (dispatchEntry e ts).2
    · simp [whileDrain, drainQueue, hd]
    · simp [whileDrain, drainQueue, hd, ih]

/-- C10: the drain loop of `processQueue` terminates on every finite
queue: each iteration shifts exactly one entry off the front, so fuel
equal to the queue length always suffices — the fuel-indexed rendering of
the literal `while` loop finishes (never returns `none`) and computes
exactly the structurally recursive drain.  (Transports in this embedding
cannot enqueue during the drain, which is the claim's proviso.) -/
theorem c10_drain_terminates {α : Type} (ts : List Transport)
    (q : List (QueueEntry α)) :
    whileDrain ts q.length q = some (drainQueue ts q) :=
  whileDrain_eq ts q q.length (Nat.le_refl q.length)
